import Mathlib

/-!
Verification of the cargo placement system.

Shallow embedding of the placement planner, spatial occupancy structures and
the retrieval/placement HTTP adapters of the repository, together with proofs
and refutations of the frozen specification claims.

Real-valued quantities of the Python source are modelled as rationals (`ℚ`);
every function is executable so that concrete witnesses evaluate by `decide`.
-/

namespace Cargo

/-- An axis-aligned box `[x0,x1) × [y0,y1) × [z0,z1)`. -/
structure Box3 where
  x0 : ℚ
  y0 : ℚ
  z0 : ℚ
  x1 : ℚ
  y1 : ℚ
  z1 : ℚ
deriving DecidableEq, Repr

/-- The spec's overlap convention: two boxes overlap iff their extents
strictly overlap beyond `eps` on all three axes. -/
def overlapEpsB (eps : ℚ) (a b : Box3) : Bool :=
  decide (a.x0 + eps < b.x1) && decide (b.x0 + eps < a.x1) &&
  decide (a.y0 + eps < b.y1) && decide (b.y0 + eps < a.y1) &&
  decide (a.z0 + eps < b.z1) && decide (b.z0 + eps < a.z1)

/-! ## Octree of `schemas.py` (`Octant`, `Octree`)

`Octant.place_item` marks a whole octant occupied when an item fits in it and,
when an octant is already occupied, subdivides it and recurses into the
children.  The mutable tree is threaded explicitly. -/

/-- The scalar fields of an `Octant` (`schemas.py`, `Octant.__init__`). -/
structure OctData where
  x : ℚ
  y : ℚ
  z : ℚ
  width : ℚ
  depth : ℚ
  height : ℚ
  level : Nat
  maxLevel : Nat
  occupied : Bool
deriving DecidableEq, Repr

/-- An octree node: data plus optionally 8 children (`Octant.children`). -/
inductive Oct where
  | node (data : OctData) (children : Option (List Oct))
deriving Repr

/-- The eight sub-octants created by `Octant.subdivide`, in source order. -/
def subdivideList (d : OctData) : List Oct :=
  let hw := d.width / 2
  let hd := d.depth / 2
  let hh := d.height / 2
  let mk : ℚ → ℚ → ℚ → Oct := fun xx yy zz =>
    .node { x := xx, y := yy, z := zz, width := hw, depth := hd, height := hh,
            level := d.level + 1, maxLevel := d.maxLevel, occupied := false } none
  [ mk d.x d.y d.z,
    mk (d.x + hw) d.y d.z,
    mk d.x (d.y + hd) d.z,
    mk (d.x + hw) (d.y + hd) d.z,
    mk d.x d.y (d.z + hh),
    mk (d.x + hw) d.y (d.z + hh),
    mk d.x (d.y + hd) (d.z + hh),
    mk (d.x + hw) (d.y + hd) (d.z + hh) ]

/-- `Octant.is_fitting`: octant not occupied and the item's dimensions fit. -/
def isFitting (d : OctData) (w dep h : ℚ) : Bool :=
  !d.occupied && decide (w ≤ d.width) && decide (dep ≤ d.depth) && decide (h ≤ d.height)

/-- Walks a list of children in order, placing into the first that succeeds;
children visited before the success keep their mutations. -/
def octPlaceChildren (place : Oct → Option Box3 × Oct) : List Oct → Option Box3 × List Oct
  | [] => (none, [])
  | c :: cs =>
      let (r, c') := place c
      match r with
      | some b => (some b, c' :: cs)
      | none =>
          let (r', cs') := octPlaceChildren place cs
          (r', c' :: cs')

/-- `Octant.place_item`, with a fuel argument bounding the recursion depth
(the source recursion is bounded by `max_level`). -/
def octPlace : Nat → Oct → ℚ → ℚ → ℚ → Option Box3 × Oct
  | 0, o, _, _, _ => (none, o)
  | fuel + 1, Oct.node d c, w, dep, h =>
      if d.occupied then
        -- occupied: subdivide when childless (a no-op at max level), then recurse
        let c' := if c.isNone && decide (d.level < d.maxLevel) then some (subdivideList d) else c
        match c' with
        | some cs =>
            let (r, cs') := octPlaceChildren (fun o => octPlace fuel o w dep h) cs
            (r, Oct.node d (some cs'))
        | none => (none, Oct.node d none)
      else if isFitting d w dep h then
        (some ⟨d.x, d.y, d.z, d.x + w, d.y + dep, d.z + h⟩,
         Oct.node { d with occupied := true } c)
      else if d.level < d.maxLevel then
        let c' := if c.isNone then some (subdivideList d) else c
        match c' with
        | some cs =>
            let (r, cs') := octPlaceChildren (fun o => octPlace fuel o w dep h) cs
            (r, Oct.node d (some cs'))
        | none => (none, Oct.node d none)
      else (none, Oct.node d c)

/-- `Octree.__init__`: root octant spanning the container, `max_level=5`. -/
def octreeInit (w dep h : ℚ) : Oct :=
  .node { x := 0, y := 0, z := 0, width := w, depth := dep, height := h,
          level := 0, maxLevel := 5, occupied := false } none

/-- `Octree.place_item`: place at the root (fuel covers all 6 levels). -/
def octreePlace (o : Oct) (w dep h : ℚ) : Option Box3 × Oct :=
  octPlace 8 o w dep h

/-! ## Utilities: Python semantics helpers and a stable sort

Python's `list.sort`/`sorted` are stable; they are modelled by a stable
insertion sort parameterised by a strict Boolean comparison. -/

/-- Python `int()` truncation toward zero on an exact rational. -/
def pyInt (q : ℚ) : Int :=
  if q < 0 then q.ceil else q.floor

/-- Insert `x` before the first element `y` that does not strictly precede it:
the insertion step of a stable insertion sort. -/
def sInsert (lt : α → α → Bool) (x : α) : List α → List α
  | [] => [x]
  | y :: ys => if lt y x then y :: sInsert lt x ys else x :: y :: ys

/-- Stable sort with strict Boolean comparison `lt`: elements that compare
equal keep their input order (the semantics of Python's sort). -/
def sSort (lt : α → α → Bool) (l : List α) : List α := l.foldr (sInsert lt) []

theorem mem_sInsert (lt : α → α → Bool) {x z : α} :
    ∀ {l : List α}, z ∈ sInsert lt x l ↔ z = x ∨ z ∈ l
  | [] => by simp [sInsert]
  | y :: ys => by
      cases h : lt y x
      · simp only [sInsert, h, Bool.false_eq_true, if_false, List.mem_cons]
      · simp only [sInsert, h, if_true, List.mem_cons, mem_sInsert lt (l := ys)]
        tauto

theorem sInsert_perm (lt : α → α → Bool) (x : α) :
    ∀ l : List α, (sInsert lt x l).Perm (x :: l)
  | [] => List.Perm.refl _
  | y :: ys => by
      cases h : lt y x
      · simp only [sInsert, h, Bool.false_eq_true, if_false]
        exact List.Perm.refl _
      · simp only [sInsert, h, if_true]
        exact ((sInsert_perm lt x ys).cons y).trans (List.Perm.swap x y ys)

theorem sSort_perm (lt : α → α → Bool) (l : List α) : (sSort lt l).Perm l := by
  induction l with
  | nil => simp [sSort]
  | cons x xs ih =>
      simp only [sSort, List.foldr] at *
      exact (sInsert_perm lt x _).trans (ih.cons x)

theorem pairwise_sInsert (lt : α → α → Bool)
    (hasym : ∀ a b, lt a b = true → lt b a = false)
    (hneg : ∀ a b c, lt c a = true → lt c b = true ∨ lt b a = true)
    (x : α) : ∀ l : List α, List.Pairwise (fun a b => lt b a = false) l →
      List.Pairwise (fun a b => lt b a = false) (sInsert lt x l)
  | [], _ => by simp [sInsert]
  | y :: ys, hp => by
      rcases List.pairwise_cons.mp hp with ⟨hy, hys⟩
      cases h : lt y x
      · simp only [sInsert, h, Bool.false_eq_true, if_false]
        refine List.pairwise_cons.mpr ⟨?_, hp⟩
        intro z hz
        rcases List.mem_cons.mp hz with rfl | hz'
        · exact h
        · cases hzx : lt z x
          · rfl
          · rcases hneg x y z hzx with h1 | h2
            · rw [hy z hz'] at h1; exact absurd h1 (by simp)
            · rw [h] at h2; exact absurd h2 (by simp)
      · simp only [sInsert, h, if_true]
        refine List.pairwise_cons.mpr ⟨?_, pairwise_sInsert lt hasym hneg x ys hys⟩
        intro z hz
        rcases (mem_sInsert lt).mp hz with hzx | hz'
        · rw [hzx]; exact hasym y x h
        · exact hy z hz'

theorem pairwise_sSort (lt : α → α → Bool)
    (hasym : ∀ a b, lt a b = true → lt b a = false)
    (hneg : ∀ a b c, lt c a = true → lt c b = true ∨ lt b a = true)
    (l : List α) : List.Pairwise (fun a b => lt b a = false) (sSort lt l) := by
  induction l with
  | nil => simp [sSort]
  | cons x xs ih =>
      simp only [sSort, List.foldr] at *
      exact pairwise_sInsert lt hasym hneg x _ ih

/-! ## `schemas.py`: `CargoPlacementSystem.optimize_placement`

The per-zone container dictionaries (lines 411–420), the nested helpers
`check_overlap` and `find_valid_position`, and the per-item container
selection (lines 526–556). -/

namespace Schemas

/-- One entry of `containers_by_zone` (lines 411–420). -/
structure SCont where
  containerId : String
  width : ℚ
  depth : ℚ
  height : ℚ
  usedVolume : ℚ
  occupiedSpaces : List Box3
deriving DecidableEq, Repr

/-- The `volume` field of the container dict (line 409). -/
def SCont.volume (c : SCont) : ℚ := c.width * c.depth * c.height

/-- The epsilon used by `check_overlap` in `schemas.py` (line 440): `0.001`. -/
def schemasEps : ℚ := 1/1000

/-- The per-space test inside `check_overlap`'s loop (lines 450–458):
the new item at `(x,y,z)` with dims `(w,d,h)` against the occupied `space`. -/
def space_overlap (x y z w d h : ℚ) (s : Box3) : Bool :=
  !(decide (x + schemasEps ≥ s.x1) || decide (s.x0 + schemasEps ≥ x + w) ||
    decide (y + schemasEps ≥ s.y1) || decide (s.y0 + schemasEps ≥ y + d) ||
    decide (z + schemasEps ≥ s.z1) || decide (s.z0 + schemasEps ≥ z + h))

/-- `check_overlap` (lines 437–459): container-bounds violation or overlap
with any occupied space. -/
def check_overlap (x y z w d h : ℚ) (c : SCont) : Bool :=
  decide (x < 0) || decide (y < 0) || decide (z < 0) ||
  decide (x + w > c.width + schemasEps) ||
  decide (y + d > c.depth + schemasEps) ||
  decide (z + h > c.height + schemasEps) ||
  c.occupiedSpaces.any (fun s => space_overlap x y z w d h s)

/-- The per-space distance inside the contact-bonus computation of
`find_valid_position` (lines 492–500): the minimum of the six facing
coordinate differences. -/
def dist6 (x y z w d h : ℚ) (s : Box3) : ℚ :=
  min (|x - s.x1|) (min (|x + w - s.x0|)
    (min (|y - s.y1|) (min (|y + d - s.y0|)
      (min (|z - s.z1|) (|z + h - s.z0|)))))

/-- The waste score of `find_valid_position` (lines 481–502):
`3·z + min(x, W-(x+w)) + min(y, D-(y+d))` plus, when the container is not
empty, the minimum of `dist6` over the occupied spaces. -/
def wasteScore (c : SCont) (w d h x y z : ℚ) : ℚ :=
  z * 3 + min x (c.width - (x + w)) + min y (c.depth - (y + d)) +
    (match c.occupiedSpaces with
     | [] => 0
     | s :: rest => rest.foldl (fun m sp => min m (dist6 x y z w d h sp)) (dist6 x y z w d h s))

/-- Number of iterations of `range(0, int(q) + 1)` for an exact rational `q`. -/
def gridLen (q : ℚ) : Nat :=
  let m := pyInt q
  if m < 0 then 0 else m.toNat + 1

/-- The scan order of `find_valid_position` (lines 473–478): `z` outermost,
then `y`, then `x`, each in steps of `increment = 0.1`. -/
def gridPositions (c : SCont) (w d h : ℚ) : List (ℚ × ℚ × ℚ) :=
  let inc : ℚ := 1/10
  (List.range (gridLen ((c.height - h) / inc))).flatMap (fun z =>
    (List.range (gridLen ((c.depth - d) / inc))).flatMap (fun y =>
      (List.range (gridLen ((c.width - w) / inc))).map (fun x =>
        ((x : ℚ) * inc, (y : ℚ) * inc, (z : ℚ) * inc))))

/-- One accumulator step of the scan: keep the incumbent unless the new
score is a strict improvement (`if waste < min_waste`, lines 504–506). -/
def stepAcc (p : α) (w : ℚ) : Option (α × ℚ) → Option (α × ℚ)
  | none => some (p, w)
  | some (b, mw) => if w < mw then some (p, w) else some (b, mw)

/-- The accumulator loop of `find_valid_position`: track `(best_pos,
min_waste)`, update on strict improvement, and return immediately once a
valid position scores below `1.0` (lines 504–510). -/
def scanLoop (valid : α → Bool) (waste : α → ℚ) :
    List α → Option (α × ℚ) → Option α
  | [], acc => acc.map Prod.fst
  | p :: rest, acc =>
      if valid p then
        let acc' := stepAcc p (waste p) acc
        if waste p < 1 then acc'.map Prod.fst else scanLoop valid waste rest acc'
      else scanLoop valid waste rest acc

/-- `find_valid_position` (lines 461–512). -/
def find_valid_position (c : SCont) (w d h : ℚ) : Option (ℚ × ℚ × ℚ) :=
  scanLoop (fun p => !check_overlap p.1 p.2.1 p.2.2 w d h c)
    (fun p => wasteScore c w d h p.1 p.2.1 p.2.2)
    (gridPositions c w d h) none

/-- First strict minimiser of `waste` over a list, continuing from an
accumulated best. -/
def argminFirst (waste : α → ℚ) : List α → Option (α × ℚ) → Option (α × ℚ)
  | [], acc => acc
  | p :: rest, acc => argminFirst waste rest (stepAcc p (waste p) acc)

/-- Declarative description of the scan: the first valid position scoring
below `1.0` if one exists, otherwise the first valid position of minimal
score. -/
def scanSpec (valid : α → Bool) (waste : α → ℚ)
    (ps : List α) (acc : Option (α × ℚ)) : Option α :=
  match ps.find? (fun p => valid p && decide (waste p < 1)) with
  | some p => some p
  | none => (argminFirst waste (ps.filter valid) acc).map Prod.fst

/-- The declarative form of `find_valid_position`: accept the first
candidate scoring below `1.0` immediately, otherwise the best-scoring
candidate. -/
def find_valid_position_decl (c : SCont) (w d h : ℚ) : Option (ℚ × ℚ × ℚ) :=
  scanSpec (fun p => !check_overlap p.1 p.2.1 p.2.2 w d h c)
    (fun p => wasteScore c w d h p.1 p.2.1 p.2.2)
    (gridPositions c w d h) none

theorem stepAcc_of_lt {p : α} {w : ℚ} {acc : Option (α × ℚ)}
    (hacc : ∀ b mw, acc = some (b, mw) → ¬ mw < 1) (hw : w < 1) :
    stepAcc p w acc = some (p, w) := by
  cases acc with
  | none => rfl
  | some bm =>
      obtain ⟨b, mw⟩ := bm
      have : w < mw := lt_of_lt_of_le hw (not_lt.mp (hacc b mw rfl))
      simp [stepAcc, this]

theorem stepAcc_inv {p : α} {w : ℚ} {acc : Option (α × ℚ)}
    (hacc : ∀ b mw, acc = some (b, mw) → ¬ mw < 1) (hw : ¬ w < 1) :
    ∀ b mw, stepAcc p w acc = some (b, mw) → ¬ mw < 1 := by
  intro b mw h
  cases acc with
  | none =>
      simp only [stepAcc, Option.some.injEq, Prod.mk.injEq] at h
      rw [← h.2]; exact hw
  | some bm =>
      obtain ⟨b', mw'⟩ := bm
      by_cases hlt : w < mw'
      · simp only [stepAcc, hlt, if_true, Option.some.injEq, Prod.mk.injEq] at h
        rw [← h.2]; exact hw
      · simp only [stepAcc, hlt, if_false, Option.some.injEq, Prod.mk.injEq] at h
        rw [← h.2]; exact hacc b' mw' rfl

theorem scanLoop_eq_scanSpec (valid : α → Bool) (waste : α → ℚ) :
    ∀ (ps : List α) (acc : Option (α × ℚ)),
      (∀ b mw, acc = some (b, mw) → ¬ mw < 1) →
      scanLoop valid waste ps acc = scanSpec valid waste ps acc
  | [], acc, _ => by
      simp [scanLoop, scanSpec, argminFirst]
  | p :: rest, acc, hacc => by
      cases hv : valid p
      · have ih := scanLoop_eq_scanSpec valid waste rest acc hacc
        rw [scanLoop, scanSpec, List.find?_cons_of_neg _ (by simp [hv]),
          List.filter_cons_of_neg (by simp [hv]), ih, scanSpec]
        simp [hv]
      · by_cases hw : waste p < 1
        · rw [scanLoop, scanSpec, List.find?_cons_of_pos _ (by simp [hv, hw])]
          simp [hv, hw, stepAcc_of_lt hacc hw]
        · have ih := scanLoop_eq_scanSpec valid waste rest (stepAcc p (waste p) acc)
            (stepAcc_inv (p := p) hacc hw)
          rw [scanLoop, scanSpec, List.find?_cons_of_neg _ (by simp [hv, hw]),
            List.filter_cons_of_pos (by simp [hv])]
          simp only [hv, if_true, hw, if_false, ih, scanSpec, argminFirst]

/-- The orientation list tried by `optimize_placement` (lines 565–572):
all six axis permutations, in source order, with no deduplication. -/
def orientationsList (w d h : ℚ) : List (ℚ × ℚ × ℚ) :=
  [(w, d, h), (d, w, h), (w, h, d), (h, w, d), (d, h, w), (h, d, w)]

/-- The container-fit test of the suitable-container scan (lines 538–540). -/
def fitsItem (iw idp ih : ℚ) (c : SCont) : Bool :=
  decide (iw ≤ c.width) && decide (idp ≤ c.depth) && decide (ih ≤ c.height)

/-- `suitable_containers` (lines 535–541): the zone's containers that can
fit the item; callers pass the zone list pre-sorted by volume ascending
(lines 423–424). -/
def suitableContainers (iw idp ih : ℚ) (zcs : List SCont) : List SCont :=
  zcs.filter (fitsItem iw idp ih)

/-- `avg_container_volume` (line 554): mean volume of a container list. -/
def avgVolume (cs : List SCont) : ℚ :=
  (cs.map SCont.volume).sum / (cs.length : ℚ)

/-- `is_small_item` (line 555): the item's volume is below `0.3` times the
mean volume of the *suitable* containers. -/
def isSmallItem (iw idp ih : ℚ) (cs : List SCont) : Bool :=
  decide (iw * idp * ih < avgVolume cs * (3/10))

/-- Strict volume-ascending comparison between containers. -/
def volAsc (a b : SCont) : Bool := decide (a.volume < b.volume)

/-- Strict volume-descending comparison between containers. -/
def volDesc (a b : SCont) : Bool := decide (b.volume < a.volume)

/-- The candidate-container iteration order of `optimize_placement`
(lines 553–556): suitable containers sorted by volume, ascending when the
item is flagged small and descending otherwise (`reverse=not is_small_item`,
Python's stable sort). -/
def orderedContainers (iw idp ih : ℚ) (zcs : List SCont) : List SCont :=
  let suit := suitableContainers iw idp ih zcs
  if isSmallItem iw idp ih suit then sSort volAsc suit else sSort volDesc suit

/-- The ordering described by the claim for C6, for comparison: the small
flag is computed from the mean volume of *all* the zone's containers
rather than from the suitable ones. -/
def isSmallItemClaim (iw idp ih : ℚ) (zcs : List SCont) : Bool :=
  decide (iw * idp * ih < avgVolume zcs * (3/10))

/-- Container iteration order under the claim's reading of C6 (small flag
from the whole zone), for comparison with `orderedContainers`. -/
def orderedContainersClaim (iw idp ih : ℚ) (zcs : List SCont) : List SCont :=
  let suit := suitableContainers iw idp ih zcs
  if isSmallItemClaim iw idp ih zcs then sSort volAsc suit else sSort volDesc suit

/-- The L∞ gap between the extents `[a0,a1)` and `[b0,b1)` on one axis. -/
def linfGap (a0 a1 b0 b1 : ℚ) : ℚ := max 0 (max (b0 - a1) (a0 - b1))

/-- The L∞ distance between two boxes: the spec's definition of the
contact-bonus term (`§4.D` step 6), for comparison with `dist6`. -/
def linfBoxDist (a b : Box3) : ℚ :=
  max (linfGap a.x0 a.x1 b.x0 b.x1)
    (max (linfGap a.y0 a.y1 b.y0 b.y1) (linfGap a.z0 a.z1 b.z0 b.z1))

/-- The waste score as the claim for C4 states it, with the contact term
the minimum L∞ *distance* to any already-placed box (0 if none), for
comparison with `wasteScore`. -/
def wasteScoreClaim (c : SCont) (w d h x y z : ℚ) : ℚ :=
  let cand : Box3 := ⟨x, y, z, x + w, y + d, z + h⟩
  z * 3 + min x (c.width - (x + w)) + min y (c.depth - (y + d)) +
    (match c.occupiedSpaces with
     | [] => 0
     | s :: rest => rest.foldl (fun m sp => min m (linfBoxDist cand sp)) (linfBoxDist cand s))

end Schemas

/-! ## `algos/placement_algo.py`: `AdvancedCargoPlacement`

`_check_overlap`, `_validate_coordinates`, `get_90degree_rotations`,
`_find_best_position`, `find_optimal_placement`, and the class-level
`_container_states` dictionary keyed by the dimension string
`f"{width}x{depth}x{height}"` (lines 308–332). -/

namespace PlacementAlgo

/-- `self.EPSILON` (line 341): `1e-6`. -/
def EPSILON : ℚ := 1/1000000

/-- Container dimensions held by an `AdvancedCargoPlacement` instance. -/
structure ADims where
  width : ℚ
  depth : ℚ
  height : ℚ
deriving DecidableEq, Repr

/-- `ItemDimensions` together with the string item id used as dict key. -/
structure AItem where
  itemId : String
  width : ℚ
  depth : ℚ
  height : ℚ
  mass : ℚ
  priority : ℚ
deriving DecidableEq, Repr

/-- The `Rotation` enum. -/
inductive ARot where
  | noRotation
  | rotateX
  | rotateY
  | rotateZ
deriving DecidableEq, Repr

/-- `_check_overlap` (lines 362–372): width→x, depth→y, height→z. -/
def check_overlap (a b : Box3) : Bool :=
  !(decide (a.x1 ≤ b.x0 + EPSILON) || decide (a.x0 ≥ b.x1 - EPSILON) ||
    decide (a.y1 ≤ b.y0 + EPSILON) || decide (a.y0 ≥ b.y1 - EPSILON) ||
    decide (a.z1 ≤ b.z0 + EPSILON) || decide (a.z0 ≥ b.z1 - EPSILON))

/-- `_validate_coordinates` (lines 343–360). -/
def validate_coordinates (c : ADims) (b : Box3) : Bool :=
  !(decide (b.x0 < 0) || decide (b.x0 > c.width) ||
    decide (b.y0 < 0) || decide (b.y0 > c.depth) ||
    decide (b.z0 < 0) || decide (b.z0 > c.height) ||
    decide (b.x1 < 0) || decide (b.x1 > c.width) ||
    decide (b.y1 < 0) || decide (b.y1 > c.depth) ||
    decide (b.z1 < 0) || decide (b.z1 > c.height)) &&
  !(decide (b.x1 ≤ b.x0) || decide (b.y1 ≤ b.y0) || decide (b.z1 ≤ b.z0))

/-- `get_90degree_rotations` (lines 608–651): the identity plus at most
three single-axis rotations, each guarded by a container-dimension test. -/
def get_90degree_rotations (c : ADims) (it : AItem) : List (AItem × ARot) :=
  [(it, ARot.noRotation)] ++
  (if it.height ≤ c.depth ∧ it.depth ≤ c.height then
    [({ it with depth := it.height, height := it.depth }, ARot.rotateX)] else []) ++
  (if it.width ≤ c.height ∧ it.height ≤ c.width then
    [({ it with width := it.height, height := it.width }, ARot.rotateY)] else []) ++
  (if it.width ≤ c.depth ∧ it.depth ≤ c.width then
    [({ it with width := it.depth, depth := it.width }, ARot.rotateZ)] else [])

/-- Python `round(q, 2)` (banker's rounding to two decimal places). -/
def round2 (q : ℚ) : ℚ :=
  let s := q * 100
  let fl : Int := s.floor
  let frac := s - (fl : ℚ)
  let n : Int :=
    if frac < 1/2 then fl
    else if frac > 1/2 then fl + 1
    else if fl % 2 = 0 then fl else fl + 1
  (n : ℚ) / 100

/-- `calculate_accessibility_score` (lines 534–559); the position argument
is unused by the computation, so the score does not depend on position. -/
def calculate_accessibility_score (it : AItem) : ℚ :=
  let priorityScore := it.priority / 100
  let massScore := max (1/10) (min 1 (1 - it.mass / 1000))
  let blockageScore : ℚ := 9/10
  round2 (4/10 * priorityScore + 3/10 * massScore + 3/10 * blockageScore)

/-- A per-container entry of `_container_states`: the `current_placements`
dict (insertion-ordered item id → box). -/
structure CState where
  placements : List (String × Box3)
deriving DecidableEq, Repr

/-- The empty per-container state. -/
def emptyCState : CState := ⟨[]⟩

/-- Assignment `self.current_placements[itemId] = box`: replace in place
when the key exists, else append (Python dict semantics). -/
def upsertPlacement (ps : List (String × Box3)) (k : String) (b : Box3) :
    List (String × Box3) :=
  if ps.any (fun p => p.1 == k) then
    ps.map (fun p => if p.1 == k then (k, b) else p)
  else ps ++ [(k, b)]

/-- Sort key of the candidate positions (line 417): `(height, depth,
width)`, i.e. `(z, y, x)` lexicographically. -/
def posLt (p q : ℚ × ℚ × ℚ) : Bool :=
  decide (p.2.2 < q.2.2) ||
  (decide (p.2.2 = q.2.2) &&
    (decide (p.2.1 < q.2.1) || (decide (p.2.1 = q.2.1) && decide (p.1 < q.1))))

/-- The candidate positions of `_find_best_position` (lines 393–417):
the origin, plus on-top/beside corners of every placement, deduplicated
and sorted by `(z, y, x)`. -/
def candidatePositions (occ : List Box3) : List (ℚ × ℚ × ℚ) :=
  let base := (0, 0, 0) :: occ.flatMap (fun s =>
    [(s.x0, s.y0, s.z1), (s.x1, s.y0, s.z0), (s.x0, s.y1, s.z0)])
  sSort posLt base.eraseDups

/-- `_find_best_position` (lines 374–452): scan candidates in order, skip
out-of-bounds and overlapping ones, keep the strictly best accessibility
score (which is position-independent). -/
def find_best_position (c : ADims) (st : CState) (it : AItem) :
    Option (ℚ × ℚ × ℚ) :=
  let occ := st.placements.map Prod.snd
  let step := fun (acc : Option ((ℚ × ℚ × ℚ) × ℚ)) (p : ℚ × ℚ × ℚ) =>
    if decide (p.1 + it.width > c.width + EPSILON) ||
       decide (p.2.1 + it.depth > c.depth + EPSILON) ||
       decide (p.2.2 + it.height > c.height + EPSILON) then acc
    else
      let nb : Box3 := ⟨p.1, p.2.1, p.2.2,
        p.1 + it.width, p.2.1 + it.depth, p.2.2 + it.height⟩
      if occ.any (fun s => check_overlap nb s) then acc
      else
        let score := calculate_accessibility_score it
        match acc with
        | none => some (p, score)
        | some (b, bs) => if score > bs then some (p, score) else some (b, bs)
  ((candidatePositions occ).foldl step none).map Prod.fst

/-- A placement record returned by `find_optimal_placement`. -/
structure PRec where
  itemId : String
  position : Box3
  rotation : ARot
deriving DecidableEq, Repr

/-- The sort key of `find_optimal_placement` (lines 472–476):
`(-priority, -volume)` lexicographic strict comparison. -/
def itemSortLt (a b : AItem) : Bool :=
  decide (b.priority < a.priority) ||
  (decide (a.priority = b.priority) &&
    decide (b.width * b.depth * b.height < a.width * a.depth * a.height))

/-- The item order the C3 claim describes, for comparison: ties on
priority and volume broken by item id lexicographic. -/
def itemSortLtClaim (a b : AItem) : Bool :=
  decide (b.priority < a.priority) ||
  (decide (a.priority = b.priority) &&
    (decide (b.width * b.depth * b.height < a.width * a.depth * a.height) ||
     (decide (a.width * a.depth * a.height = b.width * b.depth * b.height) &&
      decide (a.itemId < b.itemId))))

/-- The rotation loop for one item (lines 496–527): first rotation whose
best position exists and validates is committed into the placements dict. -/
def tryRotations (c : ADims) (st : CState) (iid : String) :
    List (AItem × ARot) → Option (PRec × CState)
  | [] => none
  | (ri, rot) :: rest =>
      match find_best_position c st ri with
      | some p =>
          let sc : Box3 := ⟨p.1, p.2.1, p.2.2,
            p.1 + ri.width, p.2.1 + ri.depth, p.2.2 + ri.height⟩
          if validate_coordinates c sc then
            some (⟨iid, sc, rot⟩, ⟨upsertPlacement st.placements iid sc⟩)
          else tryRotations c st iid rest
      | none => tryRotations c st iid rest

/-- The item loop of `find_optimal_placement` (lines 481–530): unplaced
items are skipped (only a warning is printed). -/
def placeLoop (c : ADims) : CState → List AItem → List PRec × CState
  | st, [] => ([], st)
  | st, it :: rest =>
      match tryRotations c st it.itemId (get_90degree_rotations c it) with
      | some (r, st') =>
          let (ps, stf) := placeLoop c st' rest
          (r :: ps, stf)
      | none => placeLoop c st rest

/-- `find_optimal_placement` (lines 454–532): sort by `(-priority,
-volume)` (Python's stable sort) and place each item in turn. -/
def find_optimal_placement (c : ADims) (st : CState) (items : List AItem) :
    List PRec × CState :=
  placeLoop c st (sSort itemSortLt items)

/-- The process-wide `_container_states` class attribute (lines 309–332):
per-container state keyed by the dimension string
`f"{width}x{depth}x{height}"`, modelled as the dimension triple (the
container id does not enter the key). -/
abbrev GStates := List ((ℚ × ℚ × ℚ) × CState)

/-- Dictionary lookup in `_container_states`. -/
def lookupG (g : GStates) (k : ℚ × ℚ × ℚ) : Option CState :=
  (g.find? (fun e => e.1 == k)).map Prod.snd

/-- Dictionary store into `_container_states`. -/
def upsertG (g : GStates) (k : ℚ × ℚ × ℚ) (st : CState) : GStates :=
  if g.any (fun e => e.1 == k) then
    g.map (fun e => if e.1 == k then (k, st) else e)
  else g ++ [(k, st)]

/-- Constructing an `AdvancedCargoPlacement` for a container of dimensions
`dims` and running `find_optimal_placement(items)`: the state is fetched
from (and stored back into) the class-level dictionary, so it survives
across runs and across distinct containers with equal dimensions. -/
def runFOP (g : GStates) (dims : ℚ × ℚ × ℚ) (items : List AItem) :
    List PRec × GStates :=
  let c : ADims := ⟨dims.1, dims.2.1, dims.2.2⟩
  let st := (lookupG g dims).getD emptyCState
  let (ps, st') := find_optimal_placement c st items
  (ps, upsertG g dims st')

end PlacementAlgo

/-! ## `routers/search_retrieve.py`: retrieval, waste bookkeeping and the
`POST /api/place` endpoint

CSV rows are modelled as records; the `coordinates` string
`(x0,y0,z0),(x1,y1,z1)` is carried as the parsed box. -/

namespace SearchRetrieve

/-- A row of `temp_imported_items.csv`. -/
structure ItemRow where
  itemId : Int
  name : String
  width : ℚ
  depth : ℚ
  height : ℚ
  usageLimit : Int
  expiryDate : Option Int
deriving DecidableEq, Repr

/-- A row of `temp_imported_containers.csv`. -/
structure ContRow where
  containerId : String
  zone : String
  width : ℚ
  depth : ℚ
  height : ℚ
deriving DecidableEq, Repr

/-- A row of `temp_cargo_arrangement.csv` with parsed coordinates. -/
structure CargoRow where
  itemId : Int
  zone : String
  containerId : String
  coords : Box3
deriving DecidableEq, Repr

/-- A row of `waste_items.csv`. -/
structure WasteEntry where
  itemId : Int
  name : String
  reason : String
  containerId : String
  position : Box3
deriving DecidableEq, Repr

/-- The file states after a `POST /api/retrieve` request. -/
structure RetrieveResult where
  success : Bool
  items : List ItemRow
  cargo : List CargoRow
  waste : List WasteEntry
deriving DecidableEq, Repr

/-- `retrieve_item` (lines 200–311): decrement the usage limit; when it
reaches 0, remove the item from the cargo file and append it to
`waste_items.csv` via `add_to_waste_items` with reason "Out of Uses". -/
def retrieve_item (items : List ItemRow) (cargo : List CargoRow)
    (containers : List ContRow) (waste : List WasteEntry) (iid : Int) :
    RetrieveResult :=
  match cargo.find? (fun r => r.itemId == iid) with
  | none => ⟨false, items, cargo, waste⟩
  | some cargoRow =>
    match items.find? (fun r => r.itemId == iid) with
    | none => ⟨false, items, cargo, waste⟩
    | some itemRow =>
      match containers.find? (fun c => c.zone == cargoRow.zone) with
      | none => ⟨false, items, cargo, waste⟩
      | some contRow =>
        if itemRow.usageLimit ≤ 0 then ⟨false, items, cargo, waste⟩
        else
          let newUsage := itemRow.usageLimit - 1
          let items' := items.map (fun r =>
            if r.itemId == iid then { r with usageLimit := newUsage } else r)
          if newUsage == 0 then
            ⟨true, items',
             cargo.filter (fun r => !(r.itemId == iid)),
             waste ++ [⟨iid, itemRow.name, "Out of Uses",
               contRow.containerId, cargoRow.coords⟩]⟩
          else ⟨true, items', cargo, waste⟩

/-- Whether an item is expired at the given clock (day number). -/
def expiredAtB (it : ItemRow) (clock : Int) : Bool :=
  match it.expiryDate with
  | some e => decide (e ≤ clock)
  | none => false

/-- Modelled from the spec: the `classify_waste` operation (§6) is not
part of the sources under `src/` (only the retrieval-side waste append
is); per the spec an item becomes waste iff `expiry_date ≤ clock` or
`usage_limit == 0`. -/
def classify_waste (items : List ItemRow) (clock : Int) : List ItemRow :=
  items.filter (fun it => expiredAtB it clock || decide (it.usageLimit = 0))

/-- The strict (no-epsilon) overlap test of the `/api/place` endpoint
(lines 609–611). -/
def strictOverlap (a b : Box3) : Bool :=
  decide (a.x0 < b.x1) && decide (a.x1 > b.x0) &&
  decide (a.y0 < b.y1) && decide (a.y1 > b.y0) &&
  decide (a.z0 < b.z1) && decide (a.z1 > b.z0)

/-- Container volume (the `volume` column added at lines 507–509). -/
def contVolume (c : ContRow) : ℚ := c.width * c.depth * c.height

/-- Python `range(0, n + 1, 5)` as exact rationals. -/
def pyRange5 (n : Int) : List ℚ :=
  if n < 0 then [] else (List.range (n.toNat / 5 + 1)).map (fun k => ((5 * k : Nat) : ℚ))

/-- The position grid of `find_suitable_position` (lines 427–431):
`x` outermost, then `y`, then `z`, each in steps of 5 up to
`int(container_dim - item_dim)`. -/
def fspGrid (cw cd ch iw idp ih : ℚ) : List (ℚ × ℚ × ℚ) :=
  (pyRange5 (pyInt (cw - iw))).flatMap (fun x =>
    (pyRange5 (pyInt (cd - idp))).flatMap (fun y =>
      (pyRange5 (pyInt (ch - ih))).map (fun z => (x, y, z))))

/-- `find_suitable_position` (lines 354–456); the smaller-container scan
in its middle only prints and is omitted. -/
def find_suitable_position (containerId : String) (iw idp ih : ℚ)
    (cargo : List CargoRow) (containers : List ContRow) : Option Box3 :=
  match containers.find? (fun c => c.containerId == containerId) with
  | none => none
  | some ci =>
    if decide (iw > ci.width) || decide (idp > ci.depth) || decide (ih > ci.height) then
      none
    else
      let existing := cargo.filter (fun r => r.containerId == containerId)
      if existing.isEmpty then some ⟨0, 0, 0, iw, idp, ih⟩
      else
        ((fspGrid ci.width ci.depth ci.height iw idp ih).find? (fun p =>
          !(existing.any (fun r =>
            decide (p.1 < r.coords.x1) && decide (p.1 + iw > r.coords.x0) &&
            decide (p.2.1 < r.coords.y1) && decide (p.2.1 + idp > r.coords.y0) &&
            decide (p.2.2 < r.coords.z1) && decide (p.2.2 + ih > r.coords.z0))))).map
          (fun p => ⟨p.1, p.2.1, p.2.2, p.1 + iw, p.2.1 + idp, p.2.2 + ih⟩)

/-- A `POST /api/place` request with the (required) position parsed. -/
structure PlaceReq where
  itemId : Int
  containerId : String
  position : Box3
deriving DecidableEq, Repr

/-- The relocation attempt for one existing item of the target container
(lines 541–587): move it to the smallest same-zone container that fits it
and is smaller than the originally requested container, when a position
is found there. -/
def relocStep (zcsSorted : List ContRow) (origVol : ℚ)
    (containers : List ContRow) (cargo : List CargoRow) (row : CargoRow) :
    List CargoRow :=
  let ew := row.coords.x1 - row.coords.x0
  let ed := row.coords.y1 - row.coords.y0
  let eh := row.coords.z1 - row.coords.z0
  let smaller := zcsSorted.filter (fun c =>
    decide (c.width ≥ ew) && decide (c.depth ≥ ed) && decide (c.height ≥ eh) &&
    decide (contVolume c < origVol))
  match smaller with
  | [] => cargo
  | sc :: _ =>
    match find_suitable_position sc.containerId ew ed eh cargo containers with
    | none => cargo
    | some nb => cargo.map (fun r =>
        if r.itemId == row.itemId then
          { r with containerId := sc.containerId, coords := nb } else r)

/-- The intermediate data of a `/api/place` request at the moment the
overlap check runs (lines 589–613). -/
structure PlaceCtx where
  finalContainerId : String
  zone : String
  relocated : List CargoRow
  reqBox : Box3
  itemId : Int
deriving DecidableEq, Repr

/-- The `/api/place` pipeline up to the overlap check (lines 459–587):
item and container lookup, redirect to the smallest fitting same-zone
container (lines 504–523), and the in-memory relocation pass. -/
def placeStage (cargo : List CargoRow) (containers : List ContRow)
    (items : List ItemRow) (req : PlaceReq) : Option PlaceCtx :=
  match items.find? (fun r => r.itemId == req.itemId) with
  | none => none
  | some itemInfo =>
    match containers.find? (fun c => c.containerId == req.containerId) with
    | none => none
    | some contInfo =>
      let zone := contInfo.zone
      let zcs := containers.filter (fun c => c.zone == zone)
      let zcsSorted := sSort (fun a b => decide (contVolume a < contVolume b)) zcs
      let suitable := zcsSorted.find? (fun c =>
        decide (itemInfo.width ≤ c.width) && decide (itemInfo.depth ≤ c.depth) &&
        decide (itemInfo.height ≤ c.height))
      let cid := match suitable with
        | some sc => sc.containerId
        | none => req.containerId
      let existing := cargo.filter (fun r => r.containerId == cid)
      let relocated := existing.foldl
        (relocStep zcsSorted (contVolume contInfo) containers) cargo
      some ⟨cid, zone, relocated, req.position, req.itemId⟩

/-- The overlap condition of a staged request (lines 589–613): some other
item of the target container strictly overlaps the requested box. -/
def ctxOverlaps (ctx : PlaceCtx) : Bool :=
  (ctx.relocated.filter (fun r =>
    r.containerId == ctx.finalContainerId && !(r.itemId == ctx.itemId))).any
    (fun r => strictOverlap ctx.reqBox r.coords)

/-- Whether a `/api/place` request hits the overlap rejection branch. -/
def placeOverlapFlag (cargo : List CargoRow) (containers : List ContRow)
    (items : List ItemRow) (req : PlaceReq) : Bool :=
  match placeStage cargo containers items req with
  | none => false
  | some ctx => ctxOverlaps ctx

/-- `place_item` (`POST /api/place`, lines 458–655): returns the success
flag and the content of the cargo arrangement file after the request
(written only on the success path, lines 619–647). -/
def place_item (cargo : List CargoRow) (containers : List ContRow)
    (items : List ItemRow) (req : PlaceReq) : Bool × List CargoRow :=
  match placeStage cargo containers items req with
  | none => (false, cargo)
  | some ctx =>
    if ctxOverlaps ctx then (false, cargo)
    else
      if ctx.relocated.any (fun r => r.itemId == ctx.itemId) then
        (true, ctx.relocated.map (fun r =>
          if r.itemId == ctx.itemId then
            { r with
                zone := ctx.zone
                coords := ctx.reqBox
                containerId := ctx.finalContainerId }
          else r))
      else
        (true, ctx.relocated ++ [⟨ctx.itemId, ctx.zone, ctx.finalContainerId, ctx.reqBox⟩])

end SearchRetrieve

/-! ## Claim theorems -/

open Schemas PlacementAlgo SearchRetrieve

/-- C1: the octree insertion of `schemas.py` does not preserve the
non-overlap invariant.  Placing two 2×3×4 items into a fresh 10×10×10
octree yields two placements occupying the identical box
`[0,2)×[0,3)×[0,4)`, whose interiors overlap under the 10⁻⁶ epsilon rule:
once the root is occupied, `place_item` subdivides it and places the
second item inside a child of the already-occupied region. -/
theorem octree_double_placement_overlap :
    ((octreePlace (octreeInit 10 10 10) 2 3 4).1 = some ⟨0, 0, 0, 2, 3, 4⟩) ∧
    ((octreePlace ((octreePlace (octreeInit 10 10 10) 2 3 4).2) 2 3 4).1 =
      some ⟨0, 0, 0, 2, 3, 4⟩) ∧
    overlapEpsB (1/1000000) ⟨0, 0, 0, 2, 3, 4⟩ ⟨0, 0, 0, 2, 3, 4⟩ = true := by
  with_unfolding_all decide

/-- C2 (counterexample): the overlap checks do not all use the same
epsilon.  For the box pair `[0,1)³` and `[0.9995,2)×[0,1)×[0,1)` (an
x-axis interpenetration of 0.0005), `check_overlap` of `schemas.py`
(epsilon `0.001`) reports no overlap while `_check_overlap` of
`placement_algo.py` (epsilon `1e-6`) and the no-epsilon check of
`POST /api/place` both report overlap. -/
theorem epsilon_conventions_disagree :
    Schemas.space_overlap 0 0 0 1 1 1 ⟨1999/2000, 0, 0, 2, 1, 1⟩ = false ∧
    PlacementAlgo.check_overlap ⟨0, 0, 0, 1, 1, 1⟩ ⟨1999/2000, 0, 0, 2, 1, 1⟩ = true ∧
    SearchRetrieve.strictOverlap ⟨0, 0, 0, 1, 1, 1⟩ ⟨1999/2000, 0, 0, 2, 1, 1⟩ = true := by
  with_unfolding_all decide

/-- C2 (amended): each overlap check follows the common
strict-inequality-with-epsilon shape, but with three different epsilons:
`0.001` in `schemas.check_overlap`, `1e-6` in
`placement_algo._check_overlap`, and `0` in the `POST /api/place`
endpoint. -/
theorem overlap_checks_epsilon_shapes (x y z w d h : ℚ) (a b : Box3) :
    (Schemas.space_overlap x y z w d h b =
      overlapEpsB (1/1000) ⟨x, y, z, x + w, y + d, z + h⟩ b) ∧
    (PlacementAlgo.check_overlap a b = overlapEpsB (1/1000000) a b) ∧
    (SearchRetrieve.strictOverlap a b = overlapEpsB 0 a b) := by
  refine ⟨?_, ?_, ?_⟩
  · rw [Bool.eq_iff_iff]
    simp only [Schemas.space_overlap, Schemas.schemasEps, overlapEpsB,
      Bool.not_eq_true', Bool.or_eq_false_iff, Bool.and_eq_true,
      decide_eq_false_iff_not, decide_eq_true_eq, not_le]
  · rw [Bool.eq_iff_iff]
    simp only [PlacementAlgo.check_overlap, PlacementAlgo.EPSILON, overlapEpsB,
      Bool.not_eq_true', Bool.or_eq_false_iff, Bool.and_eq_true,
      decide_eq_false_iff_not, decide_eq_true_eq, not_le]
    constructor
    · rintro ⟨⟨⟨⟨⟨h1, h2⟩, h3⟩, h4⟩, h5⟩, h6⟩
      refine ⟨⟨⟨⟨⟨?_, ?_⟩, ?_⟩, ?_⟩, ?_⟩, ?_⟩ <;> linarith
    · rintro ⟨⟨⟨⟨⟨h1, h2⟩, h3⟩, h4⟩, h5⟩, h6⟩
      refine ⟨⟨⟨⟨⟨?_, ?_⟩, ?_⟩, ?_⟩, ?_⟩, ?_⟩ <;> linarith
  · rw [Bool.eq_iff_iff]
    simp only [SearchRetrieve.strictOverlap, overlapEpsB, Bool.and_eq_true,
      decide_eq_true_eq, add_zero]

/-- C4 (counterexample): the contact term of the waste score is not the
minimum distance to an already-placed box.  In a 20×20×20 container with
one placed box `[0,1)³`, the candidate `(5,1,0)` for a 1×1×1 item is
L∞-distance 4 from the placed box (claimed waste 10), but the code's
`dist6` term is 0 because the candidate's y-start coincides with the
placed box's y-end (actual waste 6). -/
theorem contact_term_not_linf_distance :
    Schemas.wasteScore ⟨"X", 20, 20, 20, 0, [⟨0, 0, 0, 1, 1, 1⟩]⟩ 1 1 1 5 1 0 = 6 ∧
    Schemas.wasteScoreClaim ⟨"X", 20, 20, 20, 0, [⟨0, 0, 0, 1, 1, 1⟩]⟩ 1 1 1 5 1 0 = 10 ∧
    (6 : ℚ) ≠ 10 := by
  with_unfolding_all decide

/-- C4 (amended): `find_valid_position` scores every valid candidate with
`waste = 3·z + min(x, W−(x+w)) + min(y, D−(y+d)) + contact`, where
`contact` is the minimum over placed boxes of the six facing-coordinate
differences (0 when the container is empty), accepts the first candidate
scoring below 1.0 immediately without examining the remaining candidates,
and otherwise returns the first candidate of minimal waste. -/
theorem find_valid_position_scoring_spec (c : SCont) (w d h : ℚ) :
    find_valid_position c w d h = find_valid_position_decl c w d h :=
  scanLoop_eq_scanSpec _ _ _ none (fun _ _ h => Option.noConfusion h)

theorem itemSortLt_asym (a b : AItem) (h : itemSortLt a b = true) :
    itemSortLt b a = false := by
  simp only [itemSortLt, Bool.or_eq_true, Bool.and_eq_true, decide_eq_true_eq] at h
  apply Bool.eq_false_iff.mpr
  intro hba
  simp only [itemSortLt, Bool.or_eq_true, Bool.and_eq_true, decide_eq_true_eq] at hba
  rcases h with h1 | ⟨he, h2⟩ <;> rcases hba with g1 | ⟨ge, g2⟩ <;> linarith

theorem itemSortLt_negtrans (a b c : AItem) (h : itemSortLt c a = true) :
    itemSortLt c b = true ∨ itemSortLt b a = true := by
  simp only [itemSortLt, Bool.or_eq_true, Bool.and_eq_true, decide_eq_true_eq] at *
  rcases h with h1 | ⟨he, h2⟩
  · rcases lt_trichotomy b.priority c.priority with hb | hb | hb
    · left; left; exact hb
    · right; left; linarith
    · right; left; linarith
  · rcases lt_trichotomy b.priority c.priority with hb | hb | hb
    · left; left; exact hb
    · rcases lt_trichotomy (b.width * b.depth * b.height)
        (c.width * c.depth * c.height) with hv | hv | hv
      · left; right; exact ⟨hb.symm, hv⟩
      · right; right; exact ⟨hb.trans he, by linarith⟩
      · right; right; exact ⟨hb.trans he, by linarith⟩
    · right; left; linarith

theorem tryRotations_id (c : ADims) (st : CState) (iid : String) :
    ∀ (rots : List (AItem × ARot)) (r : PRec) (st' : CState),
      tryRotations c st iid rots = some (r, st') → r.itemId = iid := by
  intro rots
  induction rots with
  | nil => intro r st' h; exact absurd h (by simp [tryRotations])
  | cons p rest ih =>
      intro r st' h
      obtain ⟨ri, rot⟩ := p
      rw [tryRotations] at h
      cases hbp : find_best_position c st ri with
      | none => rw [hbp] at h; exact ih r st' h
      | some pos =>
          rw [hbp] at h
          by_cases hv : validate_coordinates c ⟨pos.1, pos.2.1, pos.2.2,
            pos.1 + ri.width, pos.2.1 + ri.depth, pos.2.2 + ri.height⟩ = true
          · simp only [hv, if_true, Option.some.injEq, Prod.mk.injEq] at h
            rw [← h.1]
          · simp only [hv, Bool.false_eq_true, if_false] at h
            exact ih r st' h

theorem placeLoop_ids_sublist (c : ADims) :
    ∀ (items : List AItem) (st : CState),
      ((placeLoop c st items).1.map PRec.itemId).Sublist (items.map AItem.itemId)
  | [], st => by simp [placeLoop]
  | it :: rest, st => by
      rw [placeLoop]
      cases htr : tryRotations c st it.itemId (get_90degree_rotations c it) with
      | none =>
          simp only [List.map_cons]
          exact (placeLoop_ids_sublist c rest st).cons it.itemId
      | some rs =>
          obtain ⟨r, st'⟩ := rs
          have hid := tryRotations_id c st it.itemId _ r st' htr
          cases hpl : placeLoop c st' rest with
          | mk ps stf =>
              simp only [hpl, List.map_cons, hid]
              have := placeLoop_ids_sublist c rest st'
              rw [hpl] at this
              exact this.cons₂ it.itemId

/-- C3 (counterexample): ties are not broken by item id lexicographic.
Two items with equal priority and equal volume, appearing in the input in
the id order "2", "1", are processed in input order ["2", "1"], whereas
the claimed total order would process them as ["1", "2"]. -/
theorem tie_order_not_id_lexicographic :
    ((sSort itemSortLt [⟨"2", 1, 1, 1, 1, 50⟩, ⟨"1", 1, 1, 1, 1, 50⟩]).map
      AItem.itemId = ["2", "1"]) ∧
    ((sSort itemSortLtClaim [⟨"2", 1, 1, 1, 1, 50⟩, ⟨"1", 1, 1, 1, 1, 50⟩]).map
      AItem.itemId = ["1", "2"]) ∧
    ((sSort itemSortLt [⟨"2", 1, 1, 1, 1, 50⟩, ⟨"1", 1, 1, 1, 1, 50⟩]) ≠
      (sSort itemSortLtClaim [⟨"2", 1, 1, 1, 1, 50⟩, ⟨"1", 1, 1, 1, 1, 50⟩])) := by
  with_unfolding_all decide

/-- C3 (amended): within a batch call the items are processed in the
order priority descending then volume descending, with ties kept in input
order (Python's stable sort); the processing order is a permutation of
the input, and the item ids of the returned placements appear in exactly
that processing order (unplaced items omitted). -/
theorem batch_order_sorted_and_reflected (c : ADims) (st : CState)
    (items : List AItem) :
    List.Pairwise (fun a b : AItem =>
      b.priority ≤ a.priority ∧
      (b.priority = a.priority →
        b.width * b.depth * b.height ≤ a.width * a.depth * a.height))
      (sSort itemSortLt items) ∧
    (sSort itemSortLt items).Perm items ∧
    ((find_optimal_placement c st items).1.map PRec.itemId).Sublist
      ((sSort itemSortLt items).map AItem.itemId) := by
  refine ⟨?_, sSort_perm _ _, ?_⟩
  · have hp := pairwise_sSort itemSortLt itemSortLt_asym itemSortLt_negtrans items
    refine hp.imp ?_
    intro a b hab
    simp only [itemSortLt, Bool.or_eq_false_iff, Bool.and_eq_false_iff,
      decide_eq_false_iff_not, not_lt] at hab
    rcases hab with ⟨h1, h2⟩
    refine ⟨h1, fun he => ?_⟩
    rcases h2 with h2a | h2b
    · exact absurd he h2a
    · exact h2b
  · rw [find_optimal_placement]
    exact placeLoop_ids_sublist c _ st

/-- C5 (counterexample): the planner's rotation set is not the set of up
to six axis permutations.  For an item of dimensions (1,2,3) in a large
container, `get_90degree_rotations` returns only four orientations and
misses the permutation (2,3,1); and the orientation list of
`optimize_placement` for dimensions (2,2,3) contains duplicates, so it is
not deduplicated. -/
theorem rotation_set_not_six_permutations :
    ((get_90degree_rotations ⟨10, 10, 10⟩ ⟨"9", 1, 2, 3, 1, 50⟩).map
      (fun r => (r.1.width, r.1.depth, r.1.height)) =
      [(1, 2, 3), (1, 3, 2), (3, 2, 1), (2, 1, 3)]) ∧
    ((2, 3, 1) ∉ (get_90degree_rotations ⟨10, 10, 10⟩ ⟨"9", 1, 2, 3, 1, 50⟩).map
      (fun r => (r.1.width, r.1.depth, r.1.height))) ∧
    ¬ (orientationsList 2 2 3).Nodup := by
  with_unfolding_all decide

theorem msetSwap12 (a b c : ℚ) : ({a, b, c} : Multiset ℚ) = {b, a, c} := by
  show a ::ₘ b ::ₘ c ::ₘ 0 = b ::ₘ a ::ₘ c ::ₘ 0
  exact Multiset.cons_swap a b _

theorem msetSwap23 (a b c : ℚ) : ({a, b, c} : Multiset ℚ) = {a, c, b} := by
  show a ::ₘ b ::ₘ c ::ₘ 0 = a ::ₘ c ::ₘ b ::ₘ 0
  exact congrArg _ (Multiset.cons_swap b c _)

theorem mem_get90 (c : ADims) (it : AItem) (r : AItem × ARot)
    (hr : r ∈ get_90degree_rotations c it) :
    r = (it, ARot.noRotation) ∨
    r = ({ it with depth := it.height, height := it.depth }, ARot.rotateX) ∨
    r = ({ it with width := it.height, height := it.width }, ARot.rotateY) ∨
    r = ({ it with width := it.depth, depth := it.width }, ARot.rotateZ) := by
  rw [get_90degree_rotations] at hr
  simp only [List.append_assoc, List.mem_append, List.mem_singleton] at hr
  rcases hr with h | h | h | h
  · exact Or.inl h
  · right; left
    by_cases hc : it.height ≤ c.depth ∧ it.depth ≤ c.height
    · rw [if_pos hc] at h; simpa using h
    · rw [if_neg hc] at h; simp at h
  · right; right; left
    by_cases hc : it.width ≤ c.height ∧ it.height ≤ c.width
    · rw [if_pos hc] at h; simpa using h
    · rw [if_neg hc] at h; simp at h
  · right; right; right
    by_cases hc : it.width ≤ c.depth ∧ it.depth ≤ c.width
    · rw [if_pos hc] at h; simpa using h
    · rw [if_neg hc] at h; simp at h

/-- C5 (amended): the orientation list of `optimize_placement` is exactly
the six axis permutations (with duplicates when axes coincide, not
deduplicated), `get_90degree_rotations` returns at most four orientations,
and every orientation either planner may try is a permutation of the
item's catalog dimensions — hence every committed placement's effective
dimensions are a permutation of the catalog dimensions. -/
theorem orientation_permutation_fidelity (w d h : ℚ) (c : ADims) (it : AItem) :
    (orientationsList w d h).length = 6 ∧
    (∀ t ∈ orientationsList w d h,
      ({t.1, t.2.1, t.2.2} : Multiset ℚ) = {w, d, h}) ∧
    (get_90degree_rotations c it).length ≤ 4 ∧
    (∀ r ∈ get_90degree_rotations c it,
      ({r.1.width, r.1.depth, r.1.height} : Multiset ℚ) =
        {it.width, it.depth, it.height}) := by
  refine ⟨rfl, ?_, ?_, ?_⟩
  · intro t ht
    simp only [orientationsList, List.mem_cons, List.not_mem_nil, or_false] at ht
    rcases ht with rfl | rfl | rfl | rfl | rfl | rfl <;> dsimp only
    · exact msetSwap12 d w h
    · exact msetSwap23 w h d
    · exact (msetSwap12 h w d).trans (msetSwap23 w h d)
    · exact (msetSwap23 d h w).trans (msetSwap12 d w h)
    · exact (msetSwap12 h d w).trans ((msetSwap23 d h w).trans (msetSwap12 d w h))
  · rw [get_90degree_rotations]
    split_ifs <;> simp
  · intro r hr
    rcases mem_get90 c it r hr with h | h | h | h <;> rw [h] <;> dsimp only
    · exact msetSwap23 it.width it.height it.depth
    · exact (msetSwap12 it.height it.depth it.width).trans
        ((msetSwap23 it.depth it.height it.width).trans
          (msetSwap12 it.depth it.width it.height))
    · exact msetSwap12 it.depth it.width it.height

/-- C5 (witness): the amended orientation fidelity at concrete inputs:
the schemas orientation `(2,1,3)` of `(1,2,3)` and the X rotation of a
(1,2,3) item are both permutations of the catalog dimensions. -/
theorem orientation_permutation_fidelity_witness :
    ({(2 : ℚ), 1, 3} : Multiset ℚ) = {1, 2, 3} ∧
    ({(1 : ℚ), 3, 2} : Multiset ℚ) = {1, 2, 3} :=
  ⟨(orientation_permutation_fidelity 1 2 3 ⟨10, 10, 10⟩ ⟨"9", 1, 2, 3, 1, 50⟩).2.1
      (2, 1, 3) (by with_unfolding_all decide),
   (orientation_permutation_fidelity 1 2 3 ⟨10, 10, 10⟩ ⟨"9", 1, 2, 3, 1, 50⟩).2.2.2
      (⟨"9", 1, 3, 2, 1, 50⟩, ARot.rotateX) (by with_unfolding_all decide)⟩

theorem volAsc_asym (a b : SCont) (h : volAsc a b = true) : volAsc b a = false := by
  simp only [volAsc, decide_eq_true_eq] at h
  simp only [volAsc, decide_eq_false_iff_not, not_lt]
  exact le_of_lt h

theorem volAsc_negtrans (a b c : SCont) (h : volAsc c a = true) :
    volAsc c b = true ∨ volAsc b a = true := by
  simp only [volAsc, decide_eq_true_eq] at *
  rcases lt_or_le c.volume b.volume with hb | hb
  · exact Or.inl hb
  · exact Or.inr (lt_of_le_of_lt hb h)

theorem volDesc_asym (a b : SCont) (h : volDesc a b = true) : volDesc b a = false := by
  simp only [volDesc, decide_eq_true_eq] at h
  simp only [volDesc, decide_eq_false_iff_not, not_lt]
  exact le_of_lt h

theorem volDesc_negtrans (a b c : SCont) (h : volDesc c a = true) :
    volDesc c b = true ∨ volDesc b a = true := by
  simp only [volDesc, decide_eq_true_eq] at *
  rcases lt_or_le b.volume c.volume with hb | hb
  · exact Or.inl hb
  · exact Or.inr (lt_of_lt_of_le h hb)

/-- C6 (counterexample): the small-item flag is computed from the mean
volume of the *suitable* containers, not of all the zone's containers.
For a 6×6×6 item (volume 216) and a zone with containers of volumes 1
(too small to fit), 512 and 1000: the code compares against
0.3 × 756 = 226.8 and flags the item small (ascending iteration
["C2", "C3"]), while the claim compares against 0.3 × 504.33 and would
flag it large (descending iteration ["C3", "C2"]). -/
theorem container_mean_uses_suitable_only :
    (isSmallItem 6 6 6 (suitableContainers 6 6 6
      [⟨"C1", 1, 1, 1, 0, []⟩, ⟨"C2", 8, 8, 8, 0, []⟩, ⟨"C3", 10, 10, 10, 0, []⟩]) = true) ∧
    (isSmallItemClaim 6 6 6
      [⟨"C1", 1, 1, 1, 0, []⟩, ⟨"C2", 8, 8, 8, 0, []⟩, ⟨"C3", 10, 10, 10, 0, []⟩] = false) ∧
    ((orderedContainers 6 6 6
      [⟨"C1", 1, 1, 1, 0, []⟩, ⟨"C2", 8, 8, 8, 0, []⟩, ⟨"C3", 10, 10, 10, 0, []⟩]).map
        SCont.containerId = ["C2", "C3"]) ∧
    ((orderedContainersClaim 6 6 6
      [⟨"C1", 1, 1, 1, 0, []⟩, ⟨"C2", 8, 8, 8, 0, []⟩, ⟨"C3", 10, 10, 10, 0, []⟩]).map
        SCont.containerId = ["C3", "C2"]) := by
  with_unfolding_all decide

/-- C6 (amended): the planner computes the mean volume of the suitable
containers (those of the preferred zone that fit the item), flags the
item small iff its volume is below 0.3 times that mean, and iterates the
suitable containers in ascending volume when the item is small and in
descending volume otherwise. -/
theorem container_iteration_direction (iw idp ih : ℚ) (zcs : List SCont) :
    (isSmallItem iw idp ih (suitableContainers iw idp ih zcs) = true →
      List.Pairwise (fun a b : SCont => a.volume ≤ b.volume)
        (orderedContainers iw idp ih zcs)) ∧
    (isSmallItem iw idp ih (suitableContainers iw idp ih zcs) = false →
      List.Pairwise (fun a b : SCont => b.volume ≤ a.volume)
        (orderedContainers iw idp ih zcs)) ∧
    (orderedContainers iw idp ih zcs).Perm (suitableContainers iw idp ih zcs) := by
  refine ⟨?_, ?_, ?_⟩
  · intro h
    rw [orderedContainers]
    simp only [h, if_true]
    refine (pairwise_sSort volAsc volAsc_asym volAsc_negtrans _).imp ?_
    intro a b hab
    simpa [volAsc, not_lt] using hab
  · intro h
    rw [orderedContainers]
    simp only [h, Bool.false_eq_true, if_false]
    refine (pairwise_sSort volDesc volDesc_asym volDesc_negtrans _).imp ?_
    intro a b hab
    simpa [volDesc, not_lt] using hab
  · rw [orderedContainers]
    by_cases h : isSmallItem iw idp ih (suitableContainers iw idp ih zcs) = true
    · simp only [h, if_true]; exact sSort_perm _ _
    · simp only [h, if_false]; exact sSort_perm _ _

/-- C6 (witness): the iteration-direction theorem applied at concrete
inputs, in both the small-item (ascending) and large-item (descending)
branches. -/
theorem container_iteration_direction_witness :
    List.Pairwise (fun a b : SCont => a.volume ≤ b.volume)
      (orderedContainers 6 6 6
        [⟨"C2", 8, 8, 8, 0, []⟩, ⟨"C3", 10, 10, 10, 0, []⟩]) ∧
    List.Pairwise (fun a b : SCont => b.volume ≤ a.volume)
      (orderedContainers 8 8 8
        [⟨"C2", 8, 8, 8, 0, []⟩, ⟨"C3", 10, 10, 10, 0, []⟩]) :=
  ⟨(container_iteration_direction 6 6 6
      [⟨"C2", 8, 8, 8, 0, []⟩, ⟨"C3", 10, 10, 10, 0, []⟩]).1
      (by with_unfolding_all decide),
   (container_iteration_direction 8 8 8
      [⟨"C2", 8, 8, 8, 0, []⟩, ⟨"C3", 10, 10, 10, 0, []⟩]).2.1
      (by with_unfolding_all decide)⟩

/-- C7: an item is classified waste iff it is expired at the clock or its
usage limit is zero (the `classify_waste` operation is modelled from the
spec, §6, as it is not under `src/`); and on retrieval of an item whose
usage limit drops to zero, `retrieve_item` removes it from the cargo
arrangement and appends it to the waste list with reason "Out of Uses". -/
theorem waste_classification_retrieval
    (its : List ItemRow) (clock : Int)
    (items : List ItemRow) (cargo : List CargoRow) (conts : List ContRow)
    (waste : List WasteEntry) (iid : Int)
    (cRow : CargoRow) (iRow : ItemRow) (kRow : ContRow)
    (hc : cargo.find? (fun r => r.itemId == iid) = some cRow)
    (hi : items.find? (fun r => r.itemId == iid) = some iRow)
    (hk : conts.find? (fun c => c.zone == cRow.zone) = some kRow)
    (hu : iRow.usageLimit = 1) :
    (∀ it ∈ its, (it ∈ classify_waste its clock ↔
      (expiredAtB it clock = true ∨ it.usageLimit = 0))) ∧
    (retrieve_item items cargo conts waste iid).success = true ∧
    (∀ row ∈ (retrieve_item items cargo conts waste iid).cargo, row.itemId ≠ iid) ∧
    (retrieve_item items cargo conts waste iid).waste =
      waste ++ [⟨iid, iRow.name, "Out of Uses", kRow.containerId, cRow.coords⟩] := by
  have hret : retrieve_item items cargo conts waste iid =
      ⟨true,
       items.map (fun r => if r.itemId == iid then { r with usageLimit := 0 } else r),
       cargo.filter (fun r => !(r.itemId == iid)),
       waste ++ [⟨iid, iRow.name, "Out of Uses", kRow.containerId, cRow.coords⟩]⟩ := by
    rw [retrieve_item, hc]
    dsimp only
    rw [hi]
    dsimp only
    rw [hk]
    dsimp only
    rw [hu]
    norm_num
  refine ⟨?_, ?_, ?_, ?_⟩
  · intro it hit
    simp [classify_waste, List.mem_filter, hit]
  · rw [hret]
  · rw [hret]
    intro row hrow
    simp only [List.mem_filter, Bool.not_eq_eq_eq_not, Bool.not_true, beq_eq_false_iff_ne,
      ne_eq] at hrow
    exact hrow.2
  · rw [hret]

/-- C7 (witness): retrieving item 5 (usage limit 1) removes it from the
cargo arrangement and appends the waste entry; and the classification
predicate holds at a concrete expired item. -/
theorem waste_classification_retrieval_witness :
    (retrieve_item [⟨5, "battery", 1, 1, 1, 1, some 3⟩]
      [⟨5, "Z", "K", ⟨0, 0, 0, 1, 1, 1⟩⟩] [⟨"K", "Z", 3, 3, 3⟩] [] 5).success = true ∧
    (retrieve_item [⟨5, "battery", 1, 1, 1, 1, some 3⟩]
      [⟨5, "Z", "K", ⟨0, 0, 0, 1, 1, 1⟩⟩] [⟨"K", "Z", 3, 3, 3⟩] [] 5).waste =
      [] ++ [⟨5, "battery", "Out of Uses", "K", ⟨0, 0, 0, 1, 1, 1⟩⟩] ∧
    ((⟨5, "battery", 1, 1, 1, 1, some 3⟩ : ItemRow) ∈
      classify_waste [⟨5, "battery", 1, 1, 1, 1, some 3⟩] 10 ↔
      (expiredAtB ⟨5, "battery", 1, 1, 1, 1, some 3⟩ 10 = true ∨
        (⟨5, "battery", 1, 1, 1, 1, some 3⟩ : ItemRow).usageLimit = 0)) := by
  have h := waste_classification_retrieval
    [⟨5, "battery", 1, 1, 1, 1, some 3⟩] 10
    [⟨5, "battery", 1, 1, 1, 1, some 3⟩]
    [⟨5, "Z", "K", ⟨0, 0, 0, 1, 1, 1⟩⟩] [⟨"K", "Z", 3, 3, 3⟩] [] 5
    ⟨5, "Z", "K", ⟨0, 0, 0, 1, 1, 1⟩⟩ ⟨5, "battery", 1, 1, 1, 1, some 3⟩
    ⟨"K", "Z", 3, 3, 3⟩
    (by with_unfolding_all decide) (by with_unfolding_all decide)
    (by with_unfolding_all decide) rfl
  exact ⟨h.2.1, h.2.2.2, h.1 _ (by simp)⟩

/-- C10: when the requested position of a `POST /api/place` request
overlaps an existing placement in the target container, the endpoint
returns success = false and the cargo arrangement file is left unchanged:
the in-memory relocations computed earlier in the request are discarded,
never written. -/
theorem place_overlap_leaves_cargo_unchanged
    (cargo : List CargoRow) (containers : List ContRow) (items : List ItemRow)
    (req : PlaceReq)
    (h : placeOverlapFlag cargo containers items req = true) :
    place_item cargo containers items req = (false, cargo) := by
  rw [placeOverlapFlag] at h
  rw [place_item]
  cases hs : placeStage cargo containers items req with
  | none =>
      rw [hs] at h
  | some ctx =>
      rw [hs] at h
      have h' : ctxOverlaps ctx = true := h
      simp [h']

/-- C10 (witness): a request placing item 1 at `[0,1)³` of container "K",
which already holds item 2 at the same box, is rejected with the cargo
file unchanged. -/
theorem place_overlap_leaves_cargo_unchanged_witness :
    placeOverlapFlag [⟨2, "Z", "K", ⟨0, 0, 0, 1, 1, 1⟩⟩] [⟨"K", "Z", 3, 3, 3⟩]
      [⟨1, "item-one", 1, 1, 1, 3, none⟩] ⟨1, "K", ⟨0, 0, 0, 1, 1, 1⟩⟩ = true ∧
    place_item [⟨2, "Z", "K", ⟨0, 0, 0, 1, 1, 1⟩⟩] [⟨"K", "Z", 3, 3, 3⟩]
      [⟨1, "item-one", 1, 1, 1, 3, none⟩] ⟨1, "K", ⟨0, 0, 0, 1, 1, 1⟩⟩ =
      (false, [⟨2, "Z", "K", ⟨0, 0, 0, 1, 1, 1⟩⟩]) :=
  ⟨by with_unfolding_all decide,
   place_overlap_leaves_cargo_unchanged _ _ _ _ (by with_unfolding_all decide)⟩

/-- C8: batch placement is not deterministic across runs.  Two consecutive
`find_optimal_placement` runs with the identical container dimensions and
item list give different outputs — the first places item "7" at
`(0,0,0)`, the second at `(1,0,0)` — because the per-container state
survives in the process-wide `_container_states` class dictionary. -/
theorem placement_rerun_differs :
    ((runFOP [] (10, 10, 10) [⟨"7", 1, 1, 1, 1, 50⟩]).1 =
      [⟨"7", ⟨0, 0, 0, 1, 1, 1⟩, ARot.noRotation⟩]) ∧
    ((runFOP (runFOP [] (10, 10, 10) [⟨"7", 1, 1, 1, 1, 50⟩]).2 (10, 10, 10)
        [⟨"7", 1, 1, 1, 1, 50⟩]).1 =
      [⟨"7", ⟨1, 0, 0, 2, 1, 1⟩, ARot.noRotation⟩]) ∧
    ((runFOP [] (10, 10, 10) [⟨"7", 1, 1, 1, 1, 50⟩]).1 ≠
      (runFOP (runFOP [] (10, 10, 10) [⟨"7", 1, 1, 1, 1, 50⟩]).2 (10, 10, 10)
        [⟨"7", 1, 1, 1, 1, 50⟩]).1) := by
  with_unfolding_all decide

/-- C9: occupancy state is keyed by container dimensions, not container
id.  After placing item "1" through a planner for one 10×10×10 container,
a planner constructed for a distinct 10×10×10 container starts from the
same (non-empty) state — the dimension key `(10,10,10)` retrieves the
first container's placements — and therefore places item "2" at `(1,0,0)`
instead of the origin of its own empty container. -/
theorem occupancy_shared_across_same_dims :
    ((lookupG (runFOP [] (10, 10, 10) [⟨"1", 1, 1, 1, 1, 50⟩]).2 (10, 10, 10)).getD
        emptyCState ≠ emptyCState) ∧
    ((runFOP (runFOP [] (10, 10, 10) [⟨"1", 1, 1, 1, 1, 50⟩]).2 (10, 10, 10)
        [⟨"2", 1, 1, 1, 1, 50⟩]).1 =
      [⟨"2", ⟨1, 0, 0, 2, 1, 1⟩, ARot.noRotation⟩]) := by
  with_unfolding_all decide

end Cargo
